import Mathlib

/-!
Verification development for the `react-native-pie` component (`src/Pie.js`).

JavaScript numbers are modelled by `JSNum`: an exact rational for the finite
case plus the special values `+Infinity`, `-Infinity` and `NaN`, with the
IEEE-754 propagation rules for the operations the component uses (rounding of
finite results is not modelled; the component's arithmetic is simple enough
that exact rationals are faithful for every property considered here).

Trigonometry: the code computes `cos((angle - 90) * PI / 180)` and the sine
alike.  Both composites are modelled by opaque-in-value but total parameters
`c s : Q -> Q` giving the value on finite inputs; on non-finite inputs the
real functions return NaN, which the model encodes in `jsTrig`.  No claim
depends on the actual trigonometric values, only on finiteness and on which
path commands are emitted.

SVG path strings are modelled by a small AST (`PathCmd`): the code only ever
emits `M x y` and `A rx ry xrot large sweep x y` commands, so a path is a
`List PathCmd`.
-/

inductive JSNum where
  | fin (q : ℚ)
  | posInf
  | negInf
  | nan
deriving DecidableEq

def JSNum.isNaN : JSNum → Bool
  | .nan => true
  | _ => false

def JSNum.isFinite : JSNum → Bool
  | .fin _ => true
  | _ => false

def JSNum.toQ : JSNum → ℚ
  | .fin q => q
  | _ => 0

def jsNeg : JSNum → JSNum
  | .fin q => .fin (-q)
  | .posInf => .negInf
  | .negInf => .posInf
  | .nan => .nan

def jsAdd : JSNum → JSNum → JSNum
  | .nan, _ => .nan
  | _, .nan => .nan
  | .fin a, .fin b => .fin (a + b)
  | .fin _, .posInf => .posInf
  | .fin _, .negInf => .negInf
  | .posInf, .fin _ => .posInf
  | .posInf, .posInf => .posInf
  | .posInf, .negInf => .nan
  | .negInf, .fin _ => .negInf
  | .negInf, .posInf => .nan
  | .negInf, .negInf => .negInf

def jsSub (a b : JSNum) : JSNum := jsAdd a (jsNeg b)

def jsMul : JSNum → JSNum → JSNum
  | .nan, _ => .nan
  | _, .nan => .nan
  | .fin a, .fin b => .fin (a * b)
  | .fin a, .posInf => if a = 0 then .nan else if 0 < a then .posInf else .negInf
  | .fin a, .negInf => if a = 0 then .nan else if 0 < a then .negInf else .posInf
  | .posInf, .fin b => if b = 0 then .nan else if 0 < b then .posInf else .negInf
  | .negInf, .fin b => if b = 0 then .nan else if 0 < b then .negInf else .posInf
  | .posInf, .posInf => .posInf
  | .posInf, .negInf => .negInf
  | .negInf, .posInf => .negInf
  | .negInf, .negInf => .posInf

def jsDiv : JSNum → JSNum → JSNum
  | .nan, _ => .nan
  | _, .nan => .nan
  | .fin a, .fin b =>
      if b = 0 then (if a = 0 then .nan else if 0 < a then .posInf else .negInf)
      else .fin (a / b)
  | .fin _, .posInf => .fin 0
  | .fin _, .negInf => .fin 0
  | .posInf, .fin b => if b < 0 then .negInf else .posInf
  | .negInf, .fin b => if b < 0 then .posInf else .negInf
  | .posInf, .posInf => .nan
  | .posInf, .negInf => .nan
  | .negInf, .posInf => .nan
  | .negInf, .negInf => .nan

/-- JavaScript strict less-than: any comparison with NaN is false. -/
def jsLt : JSNum → JSNum → Bool
  | .fin a, .fin b => decide (a < b)
  | .fin _, .posInf => true
  | .negInf, .fin _ => true
  | .negInf, .posInf => true
  | _, _ => false

/-- JavaScript less-or-equal: any comparison with NaN is false. -/
def jsLe : JSNum → JSNum → Bool
  | .fin a, .fin b => decide (a ≤ b)
  | .fin _, .posInf => true
  | .negInf, .nan => false
  | .negInf, _ => true
  | .posInf, .posInf => true
  | _, _ => false

/-- JavaScript truthiness of a number: `0` and `NaN` are falsy. -/
def jsTruthy : JSNum → Bool
  | .fin q => decide (q ≠ 0)
  | .nan => false
  | _ => true

/-- Model of the JS idiom `a || d` on numbers. -/
def jsOr (a d : JSNum) : JSNum := if jsTruthy a then a else d

/-- Model of `a || d` where `a` may be `undefined` (a missing prop). -/
def jsOrOpt (a : Option JSNum) (d : JSNum) : JSNum :=
  match a with
  | none => d
  | some v => jsOr v d

/-- Model of `Math.max`: NaN if either argument is NaN. -/
def jsMax (a b : JSNum) : JSNum :=
  if a.isNaN || b.isNaN then .nan else if jsLt a b then b else a

/-- Model of `Math.min`: NaN if either argument is NaN. -/
def jsMin (a b : JSNum) : JSNum :=
  if a.isNaN || b.isNaN then .nan else if jsLt a b then a else b

/-- Application of a real trigonometric composite to a JS number: finite
values go through the rational parameter, non-finite values give NaN
(`cos` and `sin` of an infinity or NaN are NaN in IEEE-754). -/
def jsTrig (f : ℚ → ℚ) : JSNum → JSNum
  | .fin q => .fin (f q)
  | _ => .nan

/-- Model of `polarToCartesian(cx, cy, r, angle)` from `Pie.js`.  The
parameters `c` and `s` stand for `angle => Math.cos((angle - 90) * PI / 180)`
and the sine composite, as functions of the angle in degrees. -/
def polarToCartesian (c s : ℚ → ℚ) (cx cy r angle : JSNum) : JSNum × JSNum :=
  if cx.isNaN || cy.isNaN || r.isNaN || angle.isNaN then (.fin 0, .fin 0)
  else
    let x := jsAdd cx (jsMul r (jsTrig c angle))
    let y := jsAdd cy (jsMul r (jsTrig s angle))
    (if x.isNaN then .fin 0 else x, if y.isNaN then .fin 0 else y)

/-- One SVG path command as emitted by `describeArc`: a move, or an arc with
radii, x-axis-rotation, large-arc flag, sweep flag and end point. -/
inductive PathCmd where
  | move (x y : JSNum)
  | arc (rx ry : JSNum) (xRot : ℚ) (largeArcFlag sweepFlag : ℕ) (x y : JSNum)
deriving DecidableEq

/-- Model of `describeArc(cx, cy, r, startAngle, arcAngle)` from `Pie.js`. -/
def describeArc (c s : ℚ → ℚ) (cx cy r startAngle arcAngle : JSNum) :
    List PathCmd :=
  if cx.isNaN || cy.isNaN || r.isNaN || startAngle.isNaN || arcAngle.isNaN then
    [.move (.fin 0) (.fin 0)]
  else if jsLe arcAngle (.fin 0) then
    [.move (.fin 0) (.fin 0)]
  else if jsLe (.fin (3599/10)) arcAngle then
    let topPoint := polarToCartesian c s cx cy r (.fin 0)
    let bottomPoint := polarToCartesian c s cx cy r (.fin 180)
    [.move topPoint.1 topPoint.2,
     .arc r r 0 0 1 bottomPoint.1 bottomPoint.2,
     .arc r r 0 0 1 topPoint.1 topPoint.2]
  else
    let endAngle := jsAdd startAngle arcAngle
    let startPt := polarToCartesian c s cx cy r endAngle
    let endPt := polarToCartesian c s cx cy r startAngle
    let largeArcFlag : ℕ := if jsLt (.fin 180) arcAngle then 1 else 0
    [.move startPt.1 startPt.2,
     .arc r r 0 largeArcFlag 0 endPt.1 endPt.2]

/-- The derived dimensions struct computed once per render by `Pie`. -/
structure Dimensions where
  radius : JSNum
  innerRadius : JSNum
  width : JSNum
  dividerSize : JSNum
deriving DecidableEq

/-- Truthiness of a possibly-missing string prop (empty string is falsy). -/
def strTruthy : Option String → Bool
  | none => false
  | some t => decide (t ≠ "")

/-- Model of the JS idiom `a || d` on a possibly-missing string. -/
def strOr (a : Option String) (d : String) : String :=
  match a with
  | none => d
  | some t => if t = "" then d else t

/-- The `Path` element produced by `ArcShape`. -/
structure PathShape where
  d : List PathCmd
  stroke : String
  strokeWidth : JSNum
  strokeLinecap : String
deriving DecidableEq

/-- Model of the `ArcShape` component: `none` when a guard branch returns
null, otherwise the rendered `Path` element. -/
def ArcShape (c s : ℚ → ℚ) (dims : Dimensions) (color : Option String)
    (strokeCap : Option String) (startAngle arcAngle : JSNum)
    (isBezian : Bool) : Option PathShape :=
  if !jsTruthy dims.radius || jsLe dims.radius (.fin 0) then none
  else
    let r := jsSub dims.radius (jsDiv dims.width (.fin 2))
    if jsLe r (.fin 0) then none
    else
      let pathData := describeArc c s dims.radius dims.radius r
        (jsOr startAngle (.fin 0)) (jsOr arcAngle (.fin 0))
      let strokeWidth :=
        if isBezian then jsMul (jsOr arcAngle (.fin 0)) (.fin 5) else dims.width
      some ⟨pathData, strOr color "#000", jsMax strokeWidth (.fin 0),
            strOr strokeCap "butt"⟩

/-- Model of `getArcAngle(percentage)` from `Pie.js`. -/
def getArcAngle (percentage : JSNum) : JSNum :=
  if percentage.isNaN || jsLt percentage (.fin 0) then .fin 0
  else jsMin (jsMul (jsDiv percentage (.fin 100)) (.fin 360)) (.fin 360)

/-- Model of `shouldShowDivider(sections, dividerSize)`; the first argument
is the length of the (valid) section list. -/
def shouldShowDivider (numSections : ℕ) (dividerSize : JSNum) : Bool :=
  decide (1 < numSections) && !dividerSize.isNaN && jsLt (.fin 0) dividerSize

/-- One entry of the `sections` prop.  `percentage` is `none` when the field
is not of number type; `color` is `none` when the field is absent. -/
structure JSSection where
  percentage : Option JSNum
  color : Option String
deriving DecidableEq

/-- The filter predicate of `Sections` (lines 119-125 of `Pie.js`); the
outer `Option` models a null entry in the array. -/
def isValidSection : Option JSSection → Bool
  | none => false
  | some sec =>
    match sec.percentage with
    | none => false
    | some p => !p.isNaN && jsLt (.fin 0) p && strTruthy sec.color

/-- `validSections`: the section list after the validity filter. -/
def validOf (l : List (Option JSSection)) : List JSSection :=
  l.filterMap (fun e => if isValidSection e then e else none)

/-- Projection used after the filter guarantees a numeric percentage. -/
def pctNum (sec : JSSection) : JSNum := sec.percentage.getD .nan

/-- Projection used after the filter guarantees a truthy color. -/
def colorStr (sec : JSSection) : String := sec.color.getD ""

/-- One arc emitted by `Sections`.  `rawStart` and `rawArc` are the local
`startAngle` and `arcAngle` consts of the loop body (before the divider
adjustment); `startAngle` and `arcAngle` are the values put in `arcProps`. -/
structure ArcRender where
  color : String
  rawStart : JSNum
  rawArc : JSNum
  startAngle : JSNum
  arcAngle : JSNum
  strokeCap : String
deriving DecidableEq

/-- One entry pushed on the `paintedSections` accumulator. -/
structure PaintedSection where
  percentage : JSNum
  color : String
  startAngle : JSNum
  arcAngle : JSNum
deriving DecidableEq

/-- The loop body of `Sections` (lines 135-165): maps the valid sections in
order while accumulating `startValue`, skipping spans below 0.1, and pushes
painted sections when round dividers are requested. -/
def sectionsWalk (dims : Dimensions) (showDividers roundDividers : Bool)
    (cap : String) : JSNum → List JSSection →
    List ArcRender × List PaintedSection
  | _, [] => ([], [])
  | startValue, sec :: rest =>
    let p := pctNum sec
    let rawStart := jsMul (jsDiv startValue (.fin 100)) (.fin 360)
    let rawArc := getArcAngle p
    let nextValue := jsAdd startValue p
    let tail := sectionsWalk dims showDividers roundDividers cap nextValue rest
    if jsLt rawArc (.fin (1/10)) then tail
    else
      let arc : ArcRender :=
        { color := colorStr sec
          rawStart := rawStart
          rawArc := rawArc
          startAngle :=
            if showDividers then jsAdd rawStart (jsOr dims.dividerSize (.fin 0))
            else rawStart
          arcAngle :=
            if showDividers then
              jsMax (jsSub rawArc (jsOr dims.dividerSize (.fin 0))) (.fin (1/10))
            else rawArc
          strokeCap := cap }
      let painted :=
        if roundDividers then [(⟨p, colorStr sec, rawStart, rawArc⟩ : PaintedSection)]
        else []
      (arc :: tail.1, painted ++ tail.2)

/-- Model of the `Sections` component: the list of rendered arcs and the
painted-sections accumulator after the render. -/
def sectionsRender (dims : Dimensions) (roundDividers : Bool) (cap : String)
    (sections : List (Option JSSection)) :
    List ArcRender × List PaintedSection :=
  let vs := validOf sections
  sectionsWalk dims (shouldShowDivider vs.length dims.dividerSize)
    roundDividers cap (.fin 0) vs

/-- Activation condition of `RoundDividers` (line 179 of `Pie.js`). -/
def roundDividersActive (dims : Dimensions) (painted : List PaintedSection)
    (visible : Bool) : Bool :=
  decide (1 < painted.length) && visible && jsLt (.fin 0) dims.dividerSize

/-- Activation condition of `CleanUpCircles` (line 215 of `Pie.js`). -/
def cleanUpCirclesActive (dims : Dimensions) (visible : Bool) : Bool :=
  !jsLe (.fin 100) dims.width && visible &&
    jsTruthy dims.radius && jsTruthy dims.innerRadius

/-- `validRadius` of the `Pie` composer; `none` models an absent prop. -/
def validRadiusOf (radius : Option JSNum) : JSNum :=
  jsMax (jsOrOpt radius (.fin 50)) (.fin 10)

/-- `validInnerRadius` of the `Pie` composer (the default 0 is applied by
`defaultProps`, so the prop is always a number here). -/
def validInnerRadiusOf (innerRadius : JSNum) : JSNum :=
  jsMax (jsOr innerRadius (.fin 0)) (.fin 0)

/-- `validDividerSize` of the `Pie` composer. -/
def validDividerSizeOf (dividerSize : JSNum) : JSNum :=
  jsMax (jsOr dividerSize (.fin 0)) (.fin 0)

/-- `finalInnerRadius` of the `Pie` composer. -/
def finalInnerRadiusOf (radius : Option JSNum) (innerRadius : JSNum) : JSNum :=
  jsMin (validInnerRadiusOf innerRadius) (jsSub (validRadiusOf radius) (.fin 1))

/-- The `dimensions` struct built by the `Pie` composer. -/
def pieDimensions (radius : Option JSNum) (innerRadius dividerSize : JSNum) :
    Dimensions :=
  let vr := validRadiusOf radius
  let fir := finalInnerRadiusOf radius innerRadius
  { radius := vr
    innerRadius := fir
    width := jsSub vr fir
    dividerSize := validDividerSizeOf dividerSize }

/-- `strokeCapForLargeBands` of the `Pie` composer. -/
def pieStrokeCapForLargeBands (strokeCap : String) : String :=
  if strokeCap = "round" then "round" else "butt"

/-- Whether `RoundDividers` fires in a `Pie` render with the given props. -/
def pieRoundDividersActive (sections : List (Option JSSection))
    (radius : Option JSNum) (innerRadius : JSNum) (strokeCap : String)
    (dividerSize : JSNum) : Bool :=
  let dims := pieDimensions radius innerRadius dividerSize
  let roundDividers := decide (strokeCap = "round")
  roundDividersActive dims
    (sectionsRender dims roundDividers (pieStrokeCapForLargeBands strokeCap)
      sections).2
    roundDividers

/-- Whether `CleanUpCircles` fires in a `Pie` render with the given props. -/
def pieCleanUpActive (radius : Option JSNum) (innerRadius : JSNum)
    (strokeCap : String) (dividerSize : JSNum) : Bool :=
  cleanUpCirclesActive (pieDimensions radius innerRadius dividerSize)
    (decide (strokeCap = "round"))

/-- Sum of a list of JS numbers. -/
def jsSum (l : List JSNum) : JSNum := l.foldr jsAdd (.fin 0)

/-- Shared example dimensions: radius 50, default inner radius and divider. -/
def exDims : Dimensions := pieDimensions (some (.fin 50)) (.fin 0) (.fin 0)

/-- The two-half example section list from the spec. -/
def twoHalves : List (Option JSSection) :=
  [some ⟨some (.fin 50), some "red"⟩, some ⟨some (.fin 50), some "blue"⟩]

theorem jsAdd_fin (x y : ℚ) : jsAdd (.fin x) (.fin y) = .fin (x + y) := rfl

theorem jsMul_fin (x y : ℚ) : jsMul (.fin x) (.fin y) = .fin (x * y) := rfl

theorem jsDiv_fin (x y : ℚ) (h : y ≠ 0) :
    jsDiv (.fin x) (.fin y) = .fin (x / y) := by
  simp [jsDiv, h]

theorem jsLt_fin (x y : ℚ) : jsLt (.fin x) (.fin y) = decide (x < y) := rfl

theorem jsLe_fin (x y : ℚ) : jsLe (.fin x) (.fin y) = decide (x ≤ y) := rfl

theorem jsMin_fin (x y : ℚ) : jsMin (.fin x) (.fin y) = .fin (min x y) := by
  simp only [jsMin, JSNum.isNaN, Bool.or_self, Bool.false_eq_true, if_false,
    jsLt_fin]
  rcases lt_or_le x y with h | h
  · simp [h, min_eq_left h.le]
  · simp [not_lt.mpr h, min_eq_right h]

theorem jsMax_fin (x y : ℚ) : jsMax (.fin x) (.fin y) = .fin (max x y) := by
  simp only [jsMax, JSNum.isNaN, Bool.or_self, Bool.false_eq_true, if_false,
    jsLt_fin]
  rcases lt_or_le x y with h | h
  · simp [h, max_eq_right h.le]
  · simp [not_lt.mpr h, max_eq_left h]

theorem getArcAngle_fin_of_nonneg (q : ℚ) (h : 0 ≤ q) :
    getArcAngle (.fin q) = .fin (min (q / 100 * 360) 360) := by
  unfold getArcAngle
  have h1 : jsLt (.fin q) (.fin 0) = false := by
    simp [jsLt_fin]; linarith
  rw [jsDiv_fin _ _ (by norm_num : (100:ℚ) ≠ 0), jsMul_fin, jsMin_fin]
  simp [JSNum.isNaN, h1]

/-- C1: for every percentage, the arc span is 0 on NaN or negative input,
equals `min(percentage/100*360, 360)` otherwise, and is always a finite value
between 0 and 360. -/
theorem getArcAngle_spec (p : JSNum) :
    (p.isNaN = true ∨ jsLt p (.fin 0) = true → getArcAngle p = .fin 0) ∧
    (p.isNaN = false → jsLt p (.fin 0) = false →
      getArcAngle p = jsMin (jsMul (jsDiv p (.fin 100)) (.fin 360)) (.fin 360)) ∧
    ∃ q : ℚ, getArcAngle p = .fin q ∧ 0 ≤ q ∧ q ≤ 360 := by
  refine ⟨?_, ?_, ?_⟩
  · intro h
    unfold getArcAngle
    rcases h with h | h <;> simp [h]
  · intro h1 h2
    unfold getArcAngle
    simp [h1, h2]
  · cases p with
    | fin q =>
      rcases lt_or_le q 0 with h | h
      · refine ⟨0, ?_, le_refl 0, by norm_num⟩
        unfold getArcAngle
        simp [jsLt_fin, h]
      · refine ⟨min (q / 100 * 360) 360, getArcAngle_fin_of_nonneg q h, ?_, ?_⟩
        · rw [le_min_iff]
          constructor <;> positivity
        · exact min_le_right _ _
    | posInf => exact ⟨360, by with_unfolding_all decide, by norm_num, le_refl _⟩
    | negInf => exact ⟨0, by with_unfolding_all decide, le_refl _, by norm_num⟩
    | nan => exact ⟨0, by with_unfolding_all decide, le_refl _, by norm_num⟩

/-- C1 witness: a negative percentage yields span 0, and 50 percent follows
the min formula. -/
theorem getArcAngle_spec_witness :
    getArcAngle (.fin (-5)) = .fin 0 ∧
    getArcAngle (.fin 50) =
      jsMin (jsMul (jsDiv (.fin 50) (.fin 100)) (.fin 360)) (.fin 360) :=
  ⟨(getArcAngle_spec (.fin (-5))).1 (Or.inr (by with_unfolding_all decide)),
   (getArcAngle_spec (.fin 50)).2.1 (by with_unfolding_all decide)
     (by with_unfolding_all decide)⟩

/-- C3 (amended): describeArc returns the placeholder path when some
argument is NaN or when the arc span compares less-or-equal to 0; being a
total function it never raises.  Infinite arguments are NOT covered: the
code only guards `isNaN`, see the counterexample. -/
theorem describeArc_degenerate (c s : ℚ → ℚ) (cx cy r sa aa : JSNum)
    (h : (cx.isNaN || cy.isNaN || r.isNaN || sa.isNaN || aa.isNaN ||
          jsLe aa (.fin 0)) = true) :
    describeArc c s cx cy r sa aa = [.move (.fin 0) (.fin 0)] := by
  by_cases hn : (cx.isNaN || cy.isNaN || r.isNaN || sa.isNaN || aa.isNaN) = true
  · simp [describeArc, hn]
  · have hn' : (cx.isNaN || cy.isNaN || r.isNaN || sa.isNaN || aa.isNaN) = false :=
      eq_false_of_ne_true hn
    have h6 : jsLe aa (.fin 0) = true := by
      rw [Bool.or_eq_true] at h
      rcases h with h | h
      · exact absurd h hn
      · exact h
    simp [describeArc, hn', h6]

/-- C3 witness: a NaN center yields the placeholder path. -/
theorem describeArc_degenerate_witness :
    describeArc (fun _ => 0) (fun _ => 0) .nan (.fin 0) (.fin 40) (.fin 0)
      (.fin 90) = [.move (.fin 0) (.fin 0)] :=
  describeArc_degenerate (fun _ => 0) (fun _ => 0) .nan (.fin 0) (.fin 40)
    (.fin 0) (.fin 90) (by with_unfolding_all decide)

/-- C3 counterexample: `arcAngle = Infinity` is non-finite, yet describeArc
does not return the placeholder path (it takes the full-circle branch,
because `Infinity >= 359.9` holds and only `isNaN` is guarded). -/
theorem describeArc_infinite_counterexample :
    describeArc (fun _ => 0) (fun _ => 0) (.fin 50) (.fin 50) (.fin 40)
      (.fin 0) .posInf ≠ [.move (.fin 0) (.fin 0)] := by
  with_unfolding_all decide

/-- C5: with finite arguments and span at least 359.9, the path is one move
followed by exactly two sweep-1 arc commands through the points at angle 180
and angle 0: the closed-circle approximation by two half circles. -/
theorem describeArc_fullCircle (c s : ℚ → ℚ) (cx cy r sa aa : ℚ)
    (h : (3599/10 : ℚ) ≤ aa) :
    describeArc c s (.fin cx) (.fin cy) (.fin r) (.fin sa) (.fin aa) =
      [.move (polarToCartesian c s (.fin cx) (.fin cy) (.fin r) (.fin 0)).1
             (polarToCartesian c s (.fin cx) (.fin cy) (.fin r) (.fin 0)).2,
       .arc (.fin r) (.fin r) 0 0 1
             (polarToCartesian c s (.fin cx) (.fin cy) (.fin r) (.fin 180)).1
             (polarToCartesian c s (.fin cx) (.fin cy) (.fin r) (.fin 180)).2,
       .arc (.fin r) (.fin r) 0 0 1
             (polarToCartesian c s (.fin cx) (.fin cy) (.fin r) (.fin 0)).1
             (polarToCartesian c s (.fin cx) (.fin cy) (.fin r) (.fin 0)).2] := by
  unfold describeArc
  have h0 : jsLe (.fin aa) (.fin 0) = false := by
    simp [jsLe_fin]; linarith
  have h1 : jsLe (.fin (3599/10)) (.fin aa) = true := by
    simp [jsLe_fin, h]
  simp [JSNum.isNaN, h0, h1]

/-- C5 witness: a 360-degree span at center 50, radius 40. -/
theorem describeArc_fullCircle_witness :
    describeArc (fun _ => 1) (fun _ => 1) (.fin 50) (.fin 50) (.fin 40)
      (.fin 0) (.fin 360) =
      [.move (polarToCartesian (fun _ => 1) (fun _ => 1) (.fin 50) (.fin 50)
               (.fin 40) (.fin 0)).1
             (polarToCartesian (fun _ => 1) (fun _ => 1) (.fin 50) (.fin 50)
               (.fin 40) (.fin 0)).2,
       .arc (.fin 40) (.fin 40) 0 0 1
             (polarToCartesian (fun _ => 1) (fun _ => 1) (.fin 50) (.fin 50)
               (.fin 40) (.fin 180)).1
             (polarToCartesian (fun _ => 1) (fun _ => 1) (.fin 50) (.fin 50)
               (.fin 40) (.fin 180)).2,
       .arc (.fin 40) (.fin 40) 0 0 1
             (polarToCartesian (fun _ => 1) (fun _ => 1) (.fin 50) (.fin 50)
               (.fin 40) (.fin 0)).1
             (polarToCartesian (fun _ => 1) (fun _ => 1) (.fin 50) (.fin 50)
               (.fin 40) (.fin 0)).2] :=
  describeArc_fullCircle (fun _ => 1) (fun _ => 1) 50 50 40 0 360
    (by norm_num)

/-- C9: with finite arguments and span strictly between 0 and 359.9, the
path is one move followed by exactly one arc command, whose large-arc flag
is 1 when the span exceeds 180 and 0 otherwise. -/
theorem describeArc_singleArc (c s : ℚ → ℚ) (cx cy r sa aa : ℚ)
    (h0 : 0 < aa) (h1 : aa < 3599/10) :
    describeArc c s (.fin cx) (.fin cy) (.fin r) (.fin sa) (.fin aa) =
      [.move (polarToCartesian c s (.fin cx) (.fin cy) (.fin r)
               (.fin (sa + aa))).1
             (polarToCartesian c s (.fin cx) (.fin cy) (.fin r)
               (.fin (sa + aa))).2,
       .arc (.fin r) (.fin r) 0 (if 180 < aa then 1 else 0) 0
             (polarToCartesian c s (.fin cx) (.fin cy) (.fin r) (.fin sa)).1
             (polarToCartesian c s (.fin cx) (.fin cy) (.fin r) (.fin sa)).2] := by
  unfold describeArc
  have ha : jsLe (.fin aa) (.fin 0) = false := by
    simp [jsLe_fin]; linarith
  have hb : jsLe (.fin (3599/10)) (.fin aa) = false := by
    simp [jsLe_fin]; linarith
  have hc : jsAdd (.fin sa) (.fin aa) = .fin (sa + aa) := rfl
  simp only [JSNum.isNaN, Bool.or_self, Bool.false_eq_true, if_false, ha, hb,
    hc, jsLt_fin]
  simp

/-- C9 witness: a 90-degree span has flag 0 and one arc command. -/
theorem describeArc_singleArc_witness :
    describeArc (fun _ => 1) (fun _ => 1) (.fin 50) (.fin 50) (.fin 40)
      (.fin 0) (.fin 90) =
      [.move (polarToCartesian (fun _ => 1) (fun _ => 1) (.fin 50) (.fin 50)
               (.fin 40) (.fin (0 + 90))).1
             (polarToCartesian (fun _ => 1) (fun _ => 1) (.fin 50) (.fin 50)
               (.fin 40) (.fin (0 + 90))).2,
       .arc (.fin 40) (.fin 40) 0 (if (180:ℚ) < 90 then 1 else 0) 0
             (polarToCartesian (fun _ => 1) (fun _ => 1) (.fin 50) (.fin 50)
               (.fin 40) (.fin 0)).1
             (polarToCartesian (fun _ => 1) (fun _ => 1) (.fin 50) (.fin 50)
               (.fin 40) (.fin 0)).2] :=
  describeArc_singleArc (fun _ => 1) (fun _ => 1) 50 50 40 0 90
    (by norm_num) (by norm_num)

theorem jsSub_fin (x y : ℚ) : jsSub (.fin x) (.fin y) = .fin (x - y) := by
  simp [jsSub, jsNeg, jsAdd, sub_eq_add_neg]

theorem validRadius_cases (radius : Option JSNum) :
    (∃ v : ℚ, validRadiusOf radius = .fin v ∧ 10 ≤ v) ∨
    (radius = some .posInf ∧ validRadiusOf radius = .posInf) := by
  rcases radius with _ | v
  · exact Or.inl ⟨50, by with_unfolding_all decide, by norm_num⟩
  · cases v with
    | fin a =>
      left
      by_cases h : a = 0
      · subst h
        exact ⟨50, by with_unfolding_all decide, by norm_num⟩
      · rcases lt_or_le a 10 with h2 | h2
        · refine ⟨10, ?_, le_refl _⟩
          simp [validRadiusOf, jsOrOpt, jsOr, jsTruthy, h, jsMax_fin,
            max_eq_right h2.le]
        · refine ⟨a, ?_, h2⟩
          simp [validRadiusOf, jsOrOpt, jsOr, jsTruthy, h, jsMax_fin,
            max_eq_left h2]
    | posInf => exact Or.inr ⟨rfl, by with_unfolding_all decide⟩
    | negInf => exact Or.inl ⟨10, by with_unfolding_all decide, le_refl _⟩
    | nan => exact Or.inl ⟨50, by with_unfolding_all decide, by norm_num⟩

theorem validInner_cases (innerRadius : JSNum) :
    (∃ w : ℚ, validInnerRadiusOf innerRadius = .fin w ∧ 0 ≤ w) ∨
    (innerRadius = .posInf ∧ validInnerRadiusOf innerRadius = .posInf) := by
  cases innerRadius with
  | fin b =>
    left
    by_cases h : b = 0
    · subst h
      exact ⟨0, by with_unfolding_all decide, le_refl _⟩
    · rcases lt_or_le b 0 with h2 | h2
      · refine ⟨0, ?_, le_refl _⟩
        simp [validInnerRadiusOf, jsOr, jsTruthy, h, jsMax_fin,
          max_eq_right h2.le]
      · refine ⟨b, ?_, h2⟩
        simp [validInnerRadiusOf, jsOr, jsTruthy, h, jsMax_fin, max_eq_left h2]
  | posInf => exact Or.inr ⟨rfl, by with_unfolding_all decide⟩
  | negInf => exact Or.inl ⟨0, by with_unfolding_all decide, le_refl _⟩
  | nan => exact Or.inl ⟨0, by with_unfolding_all decide, le_refl _⟩

/-- C4 (amended): after normalization the outer radius is at least 10, and
the inner radius is strictly below the outer radius for every input
combination except `radius = innerRadius = Infinity`, where both normalize
to Infinity (see the counterexample). -/
theorem pieRadiusNormalization (radius : Option JSNum) (innerRadius : JSNum)
    (h : ¬(radius = some .posInf ∧ innerRadius = .posInf)) :
    jsLe (.fin 10) (validRadiusOf radius) = true ∧
    jsLt (finalInnerRadiusOf radius innerRadius) (validRadiusOf radius) = true := by
  rcases validRadius_cases radius with ⟨v, hv, hv10⟩ | ⟨hr, hv⟩
  · refine ⟨by rw [hv, jsLe_fin]; simpa using hv10, ?_⟩
    rcases validInner_cases innerRadius with ⟨w, hw, hw0⟩ | ⟨hi, hw⟩
    · unfold finalInnerRadiusOf
      rw [hw, hv, jsSub_fin, jsMin_fin, jsLt_fin]
      have hle : min w (v - 1) ≤ v - 1 := min_le_right _ _
      simp only [decide_eq_true_eq]
      linarith
    · unfold finalInnerRadiusOf
      rw [hw, hv, jsSub_fin]
      have : jsMin .posInf (.fin (v - 1)) = .fin (v - 1) := rfl
      rw [this, jsLt_fin]
      simp only [decide_eq_true_eq]
      linarith
  · refine ⟨by rw [hv]; rfl, ?_⟩
    have hi : innerRadius ≠ .posInf := fun hc => h ⟨hr, hc⟩
    rcases validInner_cases innerRadius with ⟨w, hw, _⟩ | ⟨hc, _⟩
    · unfold finalInnerRadiusOf
      rw [hw, hv]
      rfl
    · exact absurd hc hi

/-- C4 witness: radius 50 with inner radius 20 normalizes to 50 and 20. -/
theorem pieRadiusNormalization_witness :
    jsLe (.fin 10) (validRadiusOf (some (.fin 50))) = true ∧
    jsLt (finalInnerRadiusOf (some (.fin 50)) (.fin 20))
      (validRadiusOf (some (.fin 50))) = true :=
  pieRadiusNormalization (some (.fin 50)) (.fin 20) (by simp)

/-- C4 counterexample: with `radius = innerRadius = Infinity`, both
normalize to Infinity and the strict inequality of the claim fails. -/
theorem pieRadiusNormalization_counterexample :
    validRadiusOf (some .posInf) = .posInf ∧
    finalInnerRadiusOf (some .posInf) .posInf = .posInf ∧
    jsLt (finalInnerRadiusOf (some .posInf) .posInf)
      (validRadiusOf (some .posInf)) = false := by
  with_unfolding_all decide

/-- C10: for numeric (finite) radius and innerRadius props, the stroke
radius `radius - width/2` equals `(radius + innerRadius)/2` on the
normalized dimensions, is at least 5, and `ArcShape` never takes a guard
branch: it renders for every arc of the render pass. -/
theorem arcShapeGuardsUnreachable (a b ds : ℚ) (c s : ℚ → ℚ)
    (color strokeCap : Option String) (startAngle arcAngle : JSNum)
    (isBezian : Bool) :
    jsSub (pieDimensions (some (.fin a)) (.fin b) (.fin ds)).radius
        (jsDiv (pieDimensions (some (.fin a)) (.fin b) (.fin ds)).width
          (.fin 2)) =
      jsDiv (jsAdd (pieDimensions (some (.fin a)) (.fin b) (.fin ds)).radius
        (pieDimensions (some (.fin a)) (.fin b) (.fin ds)).innerRadius)
        (.fin 2) ∧
    jsLe (.fin 5)
      (jsSub (pieDimensions (some (.fin a)) (.fin b) (.fin ds)).radius
        (jsDiv (pieDimensions (some (.fin a)) (.fin b) (.fin ds)).width
          (.fin 2))) = true ∧
    (ArcShape c s (pieDimensions (some (.fin a)) (.fin b) (.fin ds)) color
      strokeCap startAngle arcAngle isBezian).isSome = true := by
  have hvr : ∃ v : ℚ, validRadiusOf (some (.fin a)) = .fin v ∧ 10 ≤ v := by
    rcases validRadius_cases (some (.fin a)) with h1 | ⟨hbad, _⟩
    · exact h1
    · exact absurd hbad (by simp)
  obtain ⟨v, hv, hv10⟩ := hvr
  have hvi : ∃ w : ℚ, validInnerRadiusOf (.fin b) = .fin w ∧ 0 ≤ w := by
    rcases validInner_cases (.fin b) with h1 | ⟨hbad, _⟩
    · exact h1
    · exact absurd hbad (by simp)
  obtain ⟨w, hw, hw0⟩ := hvi
  have hrad : (pieDimensions (some (.fin a)) (.fin b) (.fin ds)).radius =
      .fin v := hv
  have hfir : (pieDimensions (some (.fin a)) (.fin b) (.fin ds)).innerRadius =
      .fin (min w (v - 1)) := by
    show finalInnerRadiusOf (some (.fin a)) (.fin b) = _
    unfold finalInnerRadiusOf
    rw [hw, hv, jsSub_fin, jsMin_fin]
  have hwid : (pieDimensions (some (.fin a)) (.fin b) (.fin ds)).width =
      .fin (v - min w (v - 1)) := by
    show jsSub (validRadiusOf (some (.fin a)))
      (finalInnerRadiusOf (some (.fin a)) (.fin b)) = _
    unfold finalInnerRadiusOf
    rw [hw, hv, jsSub_fin, jsMin_fin, jsSub_fin]
  have hm0 : 0 ≤ min w (v - 1) := le_min hw0 (by linarith)
  have hm1 : min w (v - 1) ≤ v - 1 := min_le_right _ _
  have hr2 : (2:ℚ) ≠ 0 := by norm_num
  have hstroke : jsSub (pieDimensions (some (.fin a)) (.fin b) (.fin ds)).radius
      (jsDiv (pieDimensions (some (.fin a)) (.fin b) (.fin ds)).width
        (.fin 2)) = .fin (v - (v - min w (v - 1)) / 2) := by
    rw [hrad, hwid, jsDiv_fin _ _ hr2, jsSub_fin]
  refine ⟨?_, ?_, ?_⟩
  · rw [hstroke, hrad, hfir, jsAdd_fin, jsDiv_fin _ _ hr2]
    congr 1
    ring
  · rw [hstroke, jsLe_fin]
    simp only [decide_eq_true_eq]
    linarith
  · have ht : jsTruthy (.fin v) = true := by
      simp only [jsTruthy, decide_eq_true_eq]
      intro hc
      rw [hc] at hv10
      norm_num at hv10
    have h1 : jsLe (.fin v) (.fin 0) = false := by
      rw [jsLe_fin]
      simp only [decide_eq_false_iff_not, not_le]
      linarith
    have h2 : jsLe (.fin (v - (v - min w (v - 1)) / 2)) (.fin 0) = false := by
      rw [jsLe_fin]
      simp only [decide_eq_false_iff_not, not_le]
      linarith
    unfold ArcShape
    rw [hrad, hwid, ht, jsDiv_fin _ _ hr2, jsSub_fin, h1]
    simp [h2]

theorem jsDiv_fin100 (x : ℚ) : jsDiv (.fin x) (.fin 100) = .fin (x / 100) :=
  jsDiv_fin x 100 (by norm_num)

theorem jsSum_cons (x : JSNum) (l : List JSNum) :
    jsSum (x :: l) = jsAdd x (jsSum l) := rfl

theorem isFinite_toQ (n : JSNum) (h : n.isFinite = true) : n = .fin n.toQ := by
  cases n <;> simp_all [JSNum.isFinite, JSNum.toQ]

theorem filterMap_cons_eq_none {α β : Type} (f : α → Option β) (a : α)
    (l : List α) (h : f a = none) :
    List.filterMap f (a :: l) = List.filterMap f l := by
  simp [List.filterMap_cons, h]

theorem filterMap_cons_eq_some {α β : Type} (f : α → Option β) (a : α) (b : β)
    (l : List α) (h : f a = some b) :
    List.filterMap f (a :: l) = b :: List.filterMap f l := by
  simp [List.filterMap_cons, h]

theorem isValidSection_elim (sec : JSSection)
    (h : isValidSection (some sec) = true) :
    ∃ p : JSNum, sec.percentage = some p ∧
      (!p.isNaN && jsLt (.fin 0) p && strTruthy sec.color) = true := by
  have he : isValidSection (some sec) =
      (match sec.percentage with
       | none => false
       | some p => !p.isNaN && jsLt (.fin 0) p && strTruthy sec.color) := rfl
  rw [he] at h
  cases hp : sec.percentage with
  | none => rw [hp] at h; simp at h
  | some p =>
    rw [hp] at h
    exact ⟨p, rfl, h⟩

theorem mem_validOf_valid (l : List (Option JSSection)) (sec : JSSection)
    (h : sec ∈ validOf l) : isValidSection (some sec) = true := by
  unfold validOf at h
  rw [List.mem_filterMap] at h
  obtain ⟨e, _, he⟩ := h
  by_cases hv : isValidSection e = true
  · simp only [hv, if_true] at he
    rw [he] at hv
    exact hv
  · simp only [hv, if_false, Bool.false_eq_true] at he
    exact absurd he (by simp)

/-- C6: an invalid entry (non-numeric, NaN or non-positive percentage, or
missing color) is discarded before angle allocation: removing it changes
neither the rendered arcs, nor the painted sections, nor any later start
angle, since start angles accumulate over valid sections only. -/
theorem sectionsDiscardInvalid (dims : Dimensions) (roundDividers : Bool)
    (cap : String) (xs ys : List (Option JSSection)) (e : Option JSSection)
    (h : isValidSection e = false) :
    sectionsRender dims roundDividers cap (xs ++ e :: ys) =
      sectionsRender dims roundDividers cap (xs ++ ys) := by
  have hv : validOf (xs ++ e :: ys) = validOf (xs ++ ys) := by
    unfold validOf
    rw [List.filterMap_append, List.filterMap_append, List.filterMap_cons]
    simp [h]
  unfold sectionsRender
  rw [hv]

/-- C6 witness: a section with percentage -5 between two valid sections is
filtered out entirely: the render equals the one without it. -/
theorem sectionsDiscardInvalid_witness :
    isValidSection (some ⟨some (.fin (-5)), some "green"⟩) = false ∧
    sectionsRender exDims false "butt"
        ([some ⟨some (.fin 50), some "red"⟩] ++
          (some ⟨some (.fin (-5)), some "green"⟩) ::
            [some ⟨some (.fin 50), some "blue"⟩]) =
      sectionsRender exDims false "butt"
        ([some ⟨some (.fin 50), some "red"⟩] ++
          [some ⟨some (.fin 50), some "blue"⟩]) :=
  ⟨by with_unfolding_all decide,
   sectionsDiscardInvalid exDims false "butt"
     [some ⟨some (.fin 50), some "red"⟩]
     [some ⟨some (.fin 50), some "blue"⟩]
     (some ⟨some (.fin (-5)), some "green"⟩)
     (by with_unfolding_all decide)⟩

/-- C8 counterexample: with round caps, a single valid section, divider
size 0, radius 50 and innerRadius 20 (width 30, far below the large-stroke
cutoff), the divider renderer is inactive while the cleanup circles
render, so the activation conditions are not the same. -/
theorem cleanUpCircles_counterexample :
    pieRoundDividersActive [some ⟨some (.fin 50), some "red"⟩]
        (some (.fin 50)) (.fin 20) "round" (.fin 0) = false ∧
    jsLe (.fin 100)
      (pieDimensions (some (.fin 50)) (.fin 20) (.fin 0)).width = false ∧
    pieCleanUpActive (some (.fin 50)) (.fin 20) "round" (.fin 0) = true := by
  with_unfolding_all decide

/-- C8 (amended): the cleanup circles are rendered exactly when round caps
are requested, the stroke width compares below 100, and the normalized
inner radius is truthy (nonzero); the number of valid sections and the
divider size play no role, unlike for the divider renderer. -/
theorem cleanUpCirclesActivation (radius : Option JSNum)
    (innerRadius dividerSize : JSNum) (strokeCap : String) :
    pieCleanUpActive radius innerRadius strokeCap dividerSize =
      (decide (strokeCap = "round") &&
        !jsLe (.fin 100) (pieDimensions radius innerRadius dividerSize).width &&
        jsTruthy (pieDimensions radius innerRadius dividerSize).innerRadius) := by
  unfold pieCleanUpActive cleanUpCirclesActive
  have ht : jsTruthy (pieDimensions radius innerRadius dividerSize).radius =
      true := by
    show jsTruthy (validRadiusOf radius) = true
    rcases validRadius_cases radius with ⟨v, hv, hv10⟩ | ⟨_, hv⟩
    · rw [hv]
      simp only [jsTruthy, decide_eq_true_eq]
      intro hc
      rw [hc] at hv10
      norm_num at hv10
    · rw [hv]
      rfl
  rw [ht]
  cases hA : jsLe (.fin 100) (pieDimensions radius innerRadius dividerSize).width <;>
    cases hV : decide (strokeCap = "round") <;>
      cases hI : jsTruthy (pieDimensions radius innerRadius dividerSize).innerRadius <;>
        simp [hA, hV, hI]

theorem sectionsWalk_map_rawArc (dims : Dimensions) (sd rd : Bool)
    (cap : String) (vs : List JSSection) :
    ∀ acc : JSNum,
    (sectionsWalk dims sd rd cap acc vs).1.map ArcRender.rawArc =
      vs.filterMap (fun sec =>
        if jsLt (getArcAngle (pctNum sec)) (.fin (1/10)) then none
        else some (getArcAngle (pctNum sec))) := by
  induction vs with
  | nil => intro acc; rfl
  | cons sec rest ih =>
    intro acc
    by_cases h : jsLt (getArcAngle (pctNum sec)) (.fin (1/10)) = true
    · simp only [one_div] at h
      simp [sectionsWalk, h, ih]
    · rw [Bool.not_eq_true] at h
      simp only [one_div] at h
      simp [sectionsWalk, h, ih]

theorem spanSum_bound (vs : List JSSection)
    (h : ∀ sec ∈ vs, ∃ q : ℚ, sec.percentage = some (.fin q) ∧ 0 < q) :
    ∃ t : ℚ,
      jsSum (vs.filterMap (fun sec =>
        if jsLt (getArcAngle (pctNum sec)) (.fin (1/10)) then none
        else some (getArcAngle (pctNum sec)))) = .fin t ∧
      0 ≤ t ∧ t ≤ 18/5 * (vs.map (fun sec => (pctNum sec).toQ)).sum := by
  induction vs with
  | nil => exact ⟨0, rfl, le_refl _, by simp⟩
  | cons sec rest ih =>
    obtain ⟨q, hq, hq0⟩ := h sec (List.mem_cons_self _ _)
    obtain ⟨t, ht, ht0, htb⟩ := ih (fun x hx => h x (List.mem_cons_of_mem _ hx))
    have hp : pctNum sec = .fin q := by simp [pctNum, hq]
    have harc : getArcAngle (pctNum sec) = .fin (min (q / 100 * 360) 360) := by
      rw [hp, getArcAngle_fin_of_nonneg q hq0.le]
    have hmin0 : 0 ≤ min (q / 100 * 360) 360 :=
      le_min (by positivity) (by norm_num)
    have hminb : min (q / 100 * 360) 360 ≤ 18/5 * q := by
      calc min (q / 100 * 360) 360 ≤ q / 100 * 360 := min_le_left _ _
      _ = 18/5 * q := by ring
    have hsum : (List.map (fun s0 => (pctNum s0).toQ) (sec :: rest)).sum =
        q + (rest.map (fun s0 => (pctNum s0).toQ)).sum := by
      simp [hp, JSNum.toQ]
    by_cases hskip : jsLt (getArcAngle (pctNum sec)) (.fin (1/10)) = true
    · have hnone : (fun s0 =>
          if jsLt (getArcAngle (pctNum s0)) (.fin (1/10)) then none
          else some (getArcAngle (pctNum s0))) sec = none := by
        simp only [one_div] at hskip
        simp [hskip]
      rw [filterMap_cons_eq_none (fun s0 =>
        if jsLt (getArcAngle (pctNum s0)) (.fin (1/10)) then none
        else some (getArcAngle (pctNum s0))) sec rest hnone]
      refine ⟨t, ht, ht0, ?_⟩
      rw [hsum]
      linarith
    · rw [Bool.not_eq_true] at hskip
      have hskip' : jsLt (.fin (min (q / 100 * 360) 360)) (.fin (1/10)) =
          false := by
        rw [← harc]
        exact hskip
      have hsome : (fun s0 =>
          if jsLt (getArcAngle (pctNum s0)) (.fin (1/10)) then none
          else some (getArcAngle (pctNum s0))) sec =
          some (.fin (min (q / 100 * 360) 360)) := by
        simp only [one_div] at hskip'
        simp [harc, hskip']
      rw [filterMap_cons_eq_some (fun s0 =>
        if jsLt (getArcAngle (pctNum s0)) (.fin (1/10)) then none
        else some (getArcAngle (pctNum s0))) sec
        (.fin (min (q / 100 * 360) 360)) rest hsome]
      refine ⟨min (q / 100 * 360) 360 + t, ?_, by linarith, ?_⟩
      · rw [jsSum_cons, ht, jsAdd_fin]
      · rw [hsum]
        linarith

/-- C2 (amended): when every valid section has a finite percentage and the
valid percentages total at most 100, the pre-divider-shrink spans of the
rendered sections sum to at most 360 degrees.  Without the bound on the
total, the claim fails: see the counterexample. -/
theorem sectionsSpanSum_le (dims : Dimensions) (roundDividers : Bool)
    (cap : String) (sections : List (Option JSSection))
    (hfin : ∀ sec ∈ validOf sections, (pctNum sec).isFinite = true)
    (hsum : ((validOf sections).map (fun sec => (pctNum sec).toQ)).sum ≤ 100) :
    ∃ t : ℚ,
      jsSum (((sectionsRender dims roundDividers cap sections).1).map
        ArcRender.rawArc) = .fin t ∧ t ≤ 360 := by
  unfold sectionsRender
  rw [sectionsWalk_map_rawArc]
  have h : ∀ sec ∈ validOf sections,
      ∃ q : ℚ, sec.percentage = some (.fin q) ∧ 0 < q := by
    intro sec hsec
    obtain ⟨p, hp, hb⟩ :=
      isValidSection_elim sec (mem_validOf_valid sections sec hsec)
    have hfin' := hfin sec hsec
    cases p with
    | fin q =>
      refine ⟨q, hp, ?_⟩
      simp only [Bool.and_eq_true, jsLt_fin, decide_eq_true_eq] at hb
      exact hb.1.2
    | posInf => exact absurd hfin' (by simp [pctNum, hp, JSNum.isFinite])
    | negInf => exact absurd hb (by simp [jsLt])
    | nan => exact absurd hb (by simp [JSNum.isNaN])
  obtain ⟨t, ht, _, htb⟩ := spanSum_bound (validOf sections) h
  exact ⟨t, ht, by linarith⟩

/-- C2 witness: sections of 50 and 30 percent (total 80) give a span sum
of at most 360. -/
theorem sectionsSpanSum_le_witness :
    ∃ t : ℚ,
      jsSum (((sectionsRender exDims false "butt"
        [some ⟨some (.fin 50), some "red"⟩,
         some ⟨some (.fin 30), some "blue"⟩]).1).map ArcRender.rawArc) =
        .fin t ∧ t ≤ 360 :=
  sectionsSpanSum_le exDims false "butt"
    [some ⟨some (.fin 50), some "red"⟩, some ⟨some (.fin 30), some "blue"⟩]
    (by with_unfolding_all decide) (by with_unfolding_all decide)

/-- C2 counterexample: two sections of 60 percent are both rendered, each
with a span of 216 degrees, so the spans sum to 432 > 360. -/
theorem sectionsSpanSum_counterexample :
    jsSum (((sectionsRender exDims false "butt"
        [some ⟨some (.fin 60), some "red"⟩,
         some ⟨some (.fin 60), some "blue"⟩]).1).map ArcRender.rawArc) =
      .fin 432 ∧
    jsLe (jsSum (((sectionsRender exDims false "butt"
        [some ⟨some (.fin 60), some "red"⟩,
         some ⟨some (.fin 60), some "blue"⟩]).1).map ArcRender.rawArc))
      (.fin 360) = false := by
  with_unfolding_all decide

theorem sectionsWalk_noDividers_getElem (dims : Dimensions) (rd : Bool)
    (cap : String) (vs : List JSSection) :
    ∀ (a : ℚ) (k : ℕ),
    (∀ sec ∈ vs, (pctNum sec).isFinite = true ∧
      (1/36 : ℚ) ≤ (pctNum sec).toQ) →
    (sectionsWalk dims false rd cap (.fin a) vs).1[k]? =
      vs[k]?.map (fun sec =>
        { color := colorStr sec
          rawStart := .fin ((a + ((vs.take k).map
            (fun t0 => (pctNum t0).toQ)).sum) / 100 * 360)
          rawArc := .fin (min ((pctNum sec).toQ / 100 * 360) 360)
          startAngle := .fin ((a + ((vs.take k).map
            (fun t0 => (pctNum t0).toQ)).sum) / 100 * 360)
          arcAngle := .fin (min ((pctNum sec).toQ / 100 * 360) 360)
          strokeCap := cap }) := by
  induction vs with
  | nil =>
    intro a k hall
    rfl
  | cons sec rest ih =>
    intro a k hall
    obtain ⟨hf, hb⟩ := hall sec (List.mem_cons_self _ _)
    obtain ⟨q, hq⟩ : ∃ q0 : ℚ, pctNum sec = .fin q0 := ⟨_, isFinite_toQ _ hf⟩
    rw [hq] at hb
    simp only [JSNum.toQ] at hb
    have harc : getArcAngle (.fin q) = .fin (min (q / 100 * 360) 360) :=
      getArcAngle_fin_of_nonneg q (by linarith)
    have hkeep : jsLt (getArcAngle (.fin q)) (.fin (1/10)) = false := by
      rw [harc, jsLt_fin]
      simp only [decide_eq_false_iff_not, not_lt, le_min_iff]
      constructor
      · linarith
      · norm_num
    have hkeep2 : jsLt (.fin (min (q / 100 * 360) 360)) (.fin (1/10)) =
        false := by
      rw [← harc]
      exact hkeep
    have hstep : (sectionsWalk dims false rd cap (.fin a) (sec :: rest)).1 =
        ({ color := colorStr sec
           rawStart := .fin (a / 100 * 360)
           rawArc := .fin (min (q / 100 * 360) 360)
           startAngle := .fin (a / 100 * 360)
           arcAngle := .fin (min (q / 100 * 360) 360)
           strokeCap := cap } : ArcRender) ::
          (sectionsWalk dims false rd cap (.fin (a + q)) rest).1 := by
      simp only [one_div] at hkeep hkeep2
      simp [sectionsWalk, hkeep, hkeep2, harc, jsDiv_fin100, jsMul_fin, hq,
        jsAdd_fin]
    cases k with
    | zero =>
      rw [hstep]
      simp [hq, JSNum.toQ]
    | succ k =>
      rw [hstep]
      simp only [List.getElem?_cons_succ, List.take_succ_cons, List.map_cons,
        List.sum_cons]
      rw [ih (a + q) k (fun x hx => hall x (List.mem_cons_of_mem _ hx))]
      cases hr : rest[k]? with
      | none => simp
      | some sec2 =>
        simp only [Option.map_some', ArcRender.mk.injEq, hq, JSNum.toQ]
        simp only [Option.some.injEq, ArcRender.mk.injEq, and_true, true_and]
        constructor <;> rw [add_assoc]

/-- C7: with divider size 0 the valid sections are walked in list order and
the k-th rendered arc starts at the cumulative percentage of the preceding
valid sections converted to degrees, spanning min(p/100*360, 360); the
witness instantiates the 50/50 example with butt caps: two arcs of 180
degrees starting at 0 and at 180.  (Percentages at least 1/36 keep every
span above the 0.1-degree visibility cutoff.) -/
theorem sectionsCumulativeStart (dims : Dimensions) (roundDividers : Bool)
    (cap : String) (sections : List (Option JSSection)) (k : ℕ)
    (hdz : dims.dividerSize = .fin 0)
    (hfin : ∀ sec ∈ validOf sections, (pctNum sec).isFinite = true ∧
      (1/36 : ℚ) ≤ (pctNum sec).toQ) :
    (sectionsRender dims roundDividers cap sections).1[k]? =
      (validOf sections)[k]?.map (fun sec =>
        { color := colorStr sec
          rawStart := .fin ((((validOf sections).take k).map
            (fun t0 => (pctNum t0).toQ)).sum / 100 * 360)
          rawArc := .fin (min ((pctNum sec).toQ / 100 * 360) 360)
          startAngle := .fin ((((validOf sections).take k).map
            (fun t0 => (pctNum t0).toQ)).sum / 100 * 360)
          arcAngle := .fin (min ((pctNum sec).toQ / 100 * 360) 360)
          strokeCap := cap }) := by
  have hsd : shouldShowDivider (validOf sections).length dims.dividerSize =
      false := by
    rw [hdz]
    simp [shouldShowDivider, jsLt_fin]
  simp only [sectionsRender]
  rw [hsd]
  rw [sectionsWalk_noDividers_getElem dims roundDividers cap
    (validOf sections) 0 k hfin]
  cases hr : (validOf sections)[k]? with
  | none => simp
  | some sec2 => simp

/-- C7 witness: sections 50 percent red and 50 percent blue with butt caps
render as exactly two arcs, each spanning 180 degrees, the first starting
at 0 degrees and the second at 180 degrees. -/
theorem sectionsCumulativeStart_witness :
    (sectionsRender exDims false "butt" twoHalves).1[0]? =
      some ⟨"red", .fin 0, .fin 180, .fin 0, .fin 180, "butt"⟩ ∧
    (sectionsRender exDims false "butt" twoHalves).1[1]? =
      some ⟨"blue", .fin 180, .fin 180, .fin 180, .fin 180, "butt"⟩ := by
  constructor
  · rw [sectionsCumulativeStart exDims false "butt" twoHalves 0
      (by with_unfolding_all decide) (by with_unfolding_all decide)]
    with_unfolding_all decide
  · rw [sectionsCumulativeStart exDims false "butt" twoHalves 1
      (by with_unfolding_all decide) (by with_unfolding_all decide)]
    with_unfolding_all decide
